import Mathlib

/-!
Shallow embedding of the pm2-zabbix process-tracking core: the ProcessState
value type, the PM2Tracker cache and bus-event handler, the PM2 daemon state
query, the PM2ZabbixMonitor key rendering and batch construction, and the
ZabbixDataProvider discovery registry.  JavaScript objects used as
string-keyed dictionaries are modelled as association lists that preserve
JavaScript property-insertion order (assigning to an existing key keeps its
position; assigning a fresh key appends).
-/

/-- Model of a JavaScript object used as a dictionary with string keys:
an ordered association list.  All maps built by the source keep keys unique. -/
abbrev JsMap (α : Type) : Type := List (String × α)

namespace JsMap

/-- Property read, as in obj[k]: the value at the first occurrence of the key. -/
def get? {α : Type} (m : JsMap α) (k : String) : Option α :=
  (m.find? (fun p => p.1 == k)).map Prod.snd

/-- Property assignment, as in obj[k] = v: an existing key is updated in place
(keeping its position in enumeration order), a fresh key is appended at the
end, matching JavaScript property-insertion order for non-index string keys. -/
def set {α : Type} (m : JsMap α) (k : String) (v : α) : JsMap α :=
  if m.any (fun p => p.1 == k) then
    m.map (fun p => if p.1 == k then (k, v) else p)
  else
    m ++ [(k, v)]

/-- Object.keys: the keys in enumeration order. -/
def keys {α : Type} (m : JsMap α) : List String :=
  m.map Prod.fst
end JsMap


/-- Momentary resource usage of a process (the monit / pidusage shape):
cpu usage in percent and allocated memory in bytes.  Numeric values are
modelled as integers; fractional cpu readings play no role in the properties
developed here. -/
structure Resources where
  cpu : Int
  memory : Int
deriving DecidableEq, Repr

/-- ProcessState is a container type holding run-time information about a
process.  The constructor copies name, status, resources, restarts and pid
from the source object; a source object without a pid field yields an
undefined pid, modelled as none. -/
structure ProcessState where
  name : String
  status : String
  resources : Resources
  restarts : Int
  pid : Option Int
deriving DecidableEq, Repr

/-- ProcessState.prototype.equals: checks whether a process state is roughly
equivalent to another by comparing only the status.  A null/undefined other
state compares unequal (the guard anotherState && ... yields a falsy value). -/
def ProcessState.equals (s : ProcessState) (anotherState : Option ProcessState) : Bool :=
  match anotherState with
  | none => false
  | some a => a.status == s.status

/-- PM2Tracker.getProcessID: synthesizes the textual process identifier
name + "-" + pm_id from a process info object obtained from PM2. -/
def PM2Tracker.getProcessID (name : String) (pm_id : Nat) : String :=
  name ++ "-" ++ toString pm_id

/-- The pm2_env sub-object of a process list entry: carries the status string
and the restart counter. -/
structure Pm2Env where
  status : String
  restart_time : Int
deriving DecidableEq, Repr

/-- One element of the process list returned by pm2.list(): process name,
manager-assigned pm_id, the pm2_env environment block and the monit
resource-usage block.  List entries carry no top-level pid field. -/
structure ListedProcess where
  name : String
  pm_id : Nat
  pm2_env : Pm2Env
  monit : Resources
deriving DecidableEq, Repr

/-- The ProcessState that PM2Tracker.generateProcessMap builds from one list
entry: name, pm2_env.status, monit and pm2_env.restart_time are copied; no
pid property is passed, so the constructed state's pid is undefined. -/
def PM2Tracker.listedState (processEntry : ListedProcess) : ProcessState :=
  { name := processEntry.name
    status := processEntry.pm2_env.status
    resources := processEntry.monit
    restarts := processEntry.pm2_env.restart_time
    pid := none }

/-- PM2Tracker.generateProcessMap: turns a process list into a map of
ProcessState objects keyed by the synthetic processID, assigning the entries
in list order into an initially empty object. -/
def PM2Tracker.generateProcessMap (processList : List ListedProcess) : JsMap ProcessState :=
  processList.foldl
    (fun processes processEntry =>
      processes.set (PM2Tracker.getProcessID processEntry.name processEntry.pm_id)
        (PM2Tracker.listedState processEntry))
    []

/-- The process description carried by a process:event bus event
(event.process): the ProcessState constructor reads its top-level name,
status, resources, restarts and pid fields, and getProcessID reads name and
pm_id. -/
structure BusProcess where
  name : String
  pm_id : Nat
  status : String
  resources : Resources
  restarts : Int
  pid : Option Int
deriving DecidableEq, Repr

/-- The ProcessState built by new ProcessState(event.process) in the bus
event handler. -/
def PM2Tracker.eventState (process : BusProcess) : ProcessState :=
  { name := process.name
    status := process.status
    resources := process.resources
    restarts := process.restarts
    pid := process.pid }

/-- The payload of a processStateChanged notification:
{ processID, oldState, newState }, where oldState is undefined (none) when the
identity had no cached entry before the event. -/
structure ChangeEvent where
  processID : String
  oldState : Option ProcessState
  newState : ProcessState
deriving DecidableEq, Repr

/-- PM2Tracker.prototype._handleProcessEvent, acting on the cached process
map: resolves the processID, reads the old cached entry, builds the new
ProcessState, stores it in the map unconditionally, and emits a
processStateChanged notification exactly when there was no old state or the
old state is not status-equivalent to the new one.  Returns the updated map
together with the emitted notification, if any. -/
def PM2Tracker.handleProcessEvent (processes : JsMap ProcessState) (event : BusProcess) :
    JsMap ProcessState × Option ChangeEvent :=
  let processID := PM2Tracker.getProcessID event.name event.pm_id
  let oldState := processes.get? processID
  let newState := PM2Tracker.eventState event
  let processes' := processes.set processID newState
  if (match oldState with
      | none => true
      | some old => !(old.equals (some newState))) then
    (processes', some { processID := processID, oldState := oldState, newState := newState })
  else
    (processes', none)

/-- The tracker's own state: whether start() has installed the bus
process:event listener (the listener is registered on the bus object obtained
from launchBus), and the cached process map _processes. -/
structure PM2Tracker where
  busListenerInstalled : Bool
  processes : JsMap ProcessState
deriving DecidableEq, Repr

namespace PM2Tracker

/-- The PM2Tracker constructor: the bus is null (no listener installed) and
the cached process map is the empty object. -/
def new : PM2Tracker :=
  { busListenerInstalled := false, processes := [] }

/-- PM2Tracker.prototype.start, given the process list that pm2.list()
returns during startup: connects, installs the process:event listener on the
launched bus, and loads the process list into the cache
(via _loadProcessList / generateProcessMap). -/
def start (_tracker : PM2Tracker) (processList : List ListedProcess) : PM2Tracker :=
  { busListenerInstalled := true
    processes := PM2Tracker.generateProcessMap processList }

/-- PM2Tracker.prototype.stop: the body only calls pm2.disconnectAsync(),
an outward call to the supervisor.  No field of the tracker is modified and
the process:event listener installed by start() is not removed. -/
def stop (tracker : PM2Tracker) : PM2Tracker :=
  tracker

/-- Delivery of a process:event from the bus to the tracker: the bus invokes
every registered listener, so the handler runs exactly when start() has
installed it; nothing else consumes bus events. -/
def deliverBusEvent (tracker : PM2Tracker) (event : BusProcess) :
    PM2Tracker × Option ChangeEvent :=
  if tracker.busListenerInstalled then
    let r := PM2Tracker.handleProcessEvent tracker.processes event
    ({ tracker with processes := r.1 }, r.2)
  else
    (tracker, none)

/-- PM2Tracker.prototype.getCachedProcessMap: returns this._processes. -/
def getCachedProcessMap (tracker : PM2Tracker) : JsMap ProcessState :=
  tracker.processes

/-- The cached map after a sequence of bus events has been handled in
delivery order. -/
def processEvents (processes : JsMap ProcessState) (events : List BusProcess) :
    JsMap ProcessState :=
  events.foldl (fun m event => (PM2Tracker.handleProcessEvent m event).1) processes

end PM2Tracker

/-- Error shape for the asynchronous collaborators of getPM2State: the code
distinguishes errors whose code property is ENOENT (file or process not
found) from every other error. -/
inductive IOErr where
  | ENOENT
  | other
deriving DecidableEq, Repr

/-- PM2Tracker.prototype.getPM2State, as a function of its two asynchronous
collaborators: the result of reading the pm2.pid file (fs.readFile) and the
result of querying OS-level usage for a pid (pidusage.stat), together with
the JavaScript Number coercion applied to the trimmed pidfile text.  A
rejected file read propagates as a rejection; only a stat rejection with
code ENOENT is remapped (to null, and from there to a synthetic offline
state with zero resources, zero restarts and pid 0); a successful stat
yields an online state with the live usage and the pid read from the file. -/
def PM2Tracker.getPM2State (Number : String → Int)
    (readFileResult : Except IOErr String)
    (stat : Int → Except IOErr Resources) : Except IOErr ProcessState :=
  match readFileResult with
  | Except.error e => Except.error e
  | Except.ok pidfileContent =>
    let PM2PID := Number pidfileContent.trim
    let usageResult : Except IOErr (Option Resources) :=
      match stat PM2PID with
      | Except.ok usageInfo => Except.ok (some usageInfo)
      | Except.error e => if e = IOErr.ENOENT then Except.ok none else Except.error e
    match usageResult with
    | Except.error e => Except.error e
    | Except.ok (some usageInfo) =>
      Except.ok
        { name := "PM2"
          status := "online"
          resources := usageInfo
          restarts := 0
          pid := some PM2PID }
    | Except.ok none =>
      Except.ok
        { name := "PM2"
          status := "offline"
          resources := { cpu := 0, memory := 0 }
          restarts := 0
          pid := some 0 }

/-- A JavaScript value placed into an outgoing data object: a string, a
number, or undefined (the value of a missing property). -/
inductive JsValue where
  | str (s : String)
  | num (n : Int)
  | undef
deriving DecidableEq, Repr

/-- JavaScript property access obj[k] on a value object: the stored value,
or undefined when the property is missing. -/
def JsMap.read (m : JsMap JsValue) (k : String) : JsValue :=
  (JsMap.get? m k).getD JsValue.undef

/-- The JavaScript value of a ProcessState's pid property. -/
def ProcessState.pidValue (s : ProcessState) : JsValue :=
  match s.pid with
  | some p => JsValue.num p
  | none => JsValue.undef

namespace PM2ZabbixMonitor

/-- PM2ZabbixMonitor.prototype.getDataKey: the Zabbix item key for one aspect
of one PM2-managed process. -/
def getDataKey (processID : String) (dataItem : String) : String :=
  "pm2.processes[" ++ processID ++ "," ++ dataItem ++ "]"

/-- PM2ZabbixMonitor.prototype.getManagerKey: the Zabbix item key for one
aspect of the PM2 daemon itself. -/
def getManagerKey (dataItem : String) : String :=
  "pm2." ++ dataItem

/-- The dataObject built by PM2ZabbixMonitor.prototype.sendProcessList from a
process map and handed to the data provider in one send call: for each
processID of the map, in enumeration order, the status, cpu, memory and
restarts keys are assigned in that order. -/
def sendProcessList (processMap : JsMap ProcessState) : JsMap JsValue :=
  processMap.foldl
    (fun dataObject entry =>
      ((((dataObject.set (getDataKey entry.1 "status") (JsValue.str entry.2.status)).set
        (getDataKey entry.1 "cpu") (JsValue.num entry.2.resources.cpu)).set
        (getDataKey entry.1 "memory") (JsValue.num entry.2.resources.memory)).set
        (getDataKey entry.1 "restarts") (JsValue.num entry.2.restarts)))
    []

/-- The dataObject built by PM2ZabbixMonitor.prototype.sendPM2Status from the
ProcessState that getPM2State produced: status, cpu, memory and pid keys in
the manager namespace, assigned in that order. -/
def sendPM2Status (processState : ProcessState) : JsMap JsValue :=
  ((((JsMap.set [] (getManagerKey "status") (JsValue.str processState.status)).set
    (getManagerKey "cpu") (JsValue.num processState.resources.cpu)).set
    (getManagerKey "memory") (JsValue.num processState.resources.memory)).set
    (getManagerKey "pid") processState.pidValue)

end PM2ZabbixMonitor

/-- ZabbixDataProvider: holds the list of discoverable items; the constructor
copies the initial list (or starts empty). -/
structure ZabbixDataProvider where
  discoveryItems : List (JsMap JsValue)
deriving DecidableEq, Repr

/-- The envelope returned by ZabbixDataProvider.prototype.getDiscoveryData:
an object with the item list under its data property. -/
structure DiscoveryData where
  data : List (JsMap JsValue)
deriving DecidableEq, Repr

namespace ZabbixDataProvider

/-- ZabbixDataProvider.prototype.addDiscoveryItem: pushes the item at the end
of the list. -/
def addDiscoveryItem (provider : ZabbixDataProvider) (item : JsMap JsValue) :
    ZabbixDataProvider :=
  { provider with discoveryItems := provider.discoveryItems ++ [item] }

/-- ZabbixDataProvider.prototype.getDiscoveryData: wraps the current item
list in the data envelope. -/
def getDiscoveryData (provider : ZabbixDataProvider) : DiscoveryData :=
  { data := provider.discoveryItems }

/-- ZabbixDataProvider.prototype.removeDiscoveryItems: keeps exactly the
items for which not every key of the removal specification is present with a
strictly equal value (a missing property reads as undefined and compares
unequal to the string and number values that occur in specifications). -/
def removeDiscoveryItems (provider : ZabbixDataProvider)
    (removalSpecification : JsMap JsValue) : ZabbixDataProvider :=
  { provider with
    discoveryItems := provider.discoveryItems.filter
      (fun discoveryItem =>
        !(removalSpecification.keys.all
          (fun removalKey =>
            removalSpecification.read removalKey == discoveryItem.read removalKey))) }

end ZabbixDataProvider

/-- The discovery item registered for one cached process in
PM2ZabbixMonitor.prototype.start: an object with the process-id macro key
mapped to the processID and the process-name macro key mapped to the cached
state's name. -/
def PM2ZabbixMonitor.discoveryItemFor (processID : String) (state : ProcessState) :
    JsMap JsValue :=
  [("\x7b#PROCESS_ID\x7d", JsValue.str processID),
   ("\x7b#PROCESS_NAME\x7d", JsValue.str state.name)]

/-- The discovery-population step of PM2ZabbixMonitor.prototype.start: after
the tracker has started, every entry of the cached process map is added to
the data provider as a discovery item, in Object.keys enumeration order. -/
def PM2ZabbixMonitor.start (tracker : PM2Tracker) (provider : ZabbixDataProvider) :
    ZabbixDataProvider :=
  tracker.getCachedProcessMap.foldl
    (fun dataProvider entry =>
      dataProvider.addDiscoveryItem (PM2ZabbixMonitor.discoveryItemFor entry.1 entry.2))
    provider

/-- PM2Tracker.prototype.getProcessMap: a fresh process map is always the
result of generateProcessMap on the list returned by a live pm2.list()
query; the cache is not consulted or modified. -/
def PM2Tracker.getProcessMap (processList : List ListedProcess) : JsMap ProcessState :=
  PM2Tracker.generateProcessMap processList

/-- The synthetic offline ProcessState produced by getPM2State when the pid
usage query reports that the process does not exist. -/
def PM2Tracker.offlinePM2State : ProcessState :=
  { name := "PM2"
    status := "offline"
    resources := { cpu := 0, memory := 0 }
    restarts := 0
    pid := some 0 }

/-- The four data-object entries that sendProcessList produces for one
process map entry, in assignment order. -/
def PM2ZabbixMonitor.processEntryData (entry : String × ProcessState) : JsMap JsValue :=
  [(PM2ZabbixMonitor.getDataKey entry.1 "status", JsValue.str entry.2.status),
   (PM2ZabbixMonitor.getDataKey entry.1 "cpu", JsValue.num entry.2.resources.cpu),
   (PM2ZabbixMonitor.getDataKey entry.1 "memory", JsValue.num entry.2.resources.memory),
   (PM2ZabbixMonitor.getDataKey entry.1 "restarts", JsValue.num entry.2.restarts)]

/-- A concrete bus event used to instantiate the tracker theorems. -/
def sampleBusEvent : BusProcess :=
  { name := "web"
    pm_id := 0
    status := "stopping"
    resources := { cpu := 3, memory := 1024 }
    restarts := 1
    pid := some 42 }


/-- The notification the bus-event handler emits for sampleBusEvent on an
empty cache. -/
def sampleChangeEvent : ChangeEvent :=
  { processID := "web-0"
    oldState := none
    newState := PM2Tracker.eventState sampleBusEvent }


/-- A concrete initial-list descriptor: web instance 0, online. -/
def sampleListedOnline : ListedProcess :=
  { name := "web"
    pm_id := 0
    pm2_env := { status := "online", restart_time := 0 }
    monit := { cpu := 1, memory := 2048 } }


/-- A concrete initial-list descriptor with the same derived identity as
sampleListedOnline but a different state: web instance 0, stopped. -/
def sampleListedStopped : ListedProcess :=
  { name := "web"
    pm_id := 0
    pm2_env := { status := "stopped", restart_time := 2 }
    monit := { cpu := 0, memory := 0 } }


/-- A concrete initial-list descriptor: web instance 1, online. -/
def sampleListedOnline1 : ListedProcess :=
  { name := "web"
    pm_id := 1
    pm2_env := { status := "online", restart_time := 0 }
    monit := { cpu := 2, memory := 4096 } }


/-- A concrete online supervisor state used to instantiate the pid theorems:
what getPM2State produces when the pidfile parses to 7 and the usage query
reports cpu 1 and memory 2. -/
def samplePM2Online : ProcessState :=
  { name := "PM2"
    status := "online"
    resources := { cpu := 1, memory := 2 }
    restarts := 0
    pid := some 7 }

namespace JsMap

theorem keys_append {α : Type} (m₁ m₂ : JsMap α) :
    keys (m₁ ++ m₂) = keys m₁ ++ keys m₂ := by
  simp [keys]

/-- Assigning a fresh key appends the binding. -/
theorem set_eq_append {α : Type} (m : JsMap α) (k : String) (v : α)
    (h : k ∉ keys m) : set m k v = m ++ [(k, v)] := by
  have hany : m.any (fun p => p.1 == k) = false := by
    rw [List.any_eq_false]
    intro p hp
    simp only [beq_iff_eq]
    intro hpk
    exact h (hpk ▸ List.mem_map_of_mem Prod.fst hp)
  simp [set, hany]

/-- Reading a key not present in the map yields undefined. -/
theorem get?_eq_none {α : Type} (m : JsMap α) (k : String)
    (h : k ∉ keys m) : get? m k = none := by
  have hfind : m.find? (fun p => p.1 == k) = none := by
    rw [List.find?_eq_none]
    intro p hp
    simp only [beq_iff_eq]
    intro hpk
    exact h (hpk ▸ List.mem_map_of_mem Prod.fst hp)
  simp [get?, hfind]

theorem get?_append {α : Type} (m₁ m₂ : JsMap α) (k : String) :
    get? (m₁ ++ m₂) k = ((get? m₁ k).orElse (fun _ => get? m₂ k)) := by
  simp only [get?, List.find?_append]
  cases m₁.find? (fun p => p.1 == k) <;> simp

/-- In-place update of an existing key places its new binding at the key. -/
theorem find?_update_self {α : Type} (m : JsMap α) (k : String) (v : α)
    (h : m.any (fun p => p.1 == k) = true) :
    (m.map (fun p => if p.1 == k then (k, v) else p)).find? (fun p => p.1 == k)
      = some (k, v) := by
  induction m with
  | nil => simp at h
  | cons q t ih =>
    by_cases hq : (q.1 == k) = true
    · simp only [List.map_cons, hq, if_true]
      rw [List.find?_cons_of_pos _ (by simp)]
    · simp only [List.map_cons, hq, if_false]
      rw [List.find?_cons_of_neg _ (by simp_all)]
      apply ih
      simp only [List.any_cons, hq, Bool.false_or] at h
      exact h

/-- In-place update of an existing key does not touch other keys. -/
theorem find?_update_other {α : Type} (m : JsMap α) (k k' : String) (v : α)
    (h : k' ≠ k) :
    (m.map (fun p => if p.1 == k then (k, v) else p)).find? (fun p => p.1 == k')
      = m.find? (fun p => p.1 == k') := by
  induction m with
  | nil => simp
  | cons q t ih =>
    simp only [List.map_cons]
    by_cases hq : (q.1 == k) = true
    · have hqk : q.1 = k := by simpa using hq
      have hkk' : ¬((k == k') = true) := by simp [Ne.symm h]
      rw [if_pos hq]
      rw [List.find?_cons_of_neg, List.find?_cons_of_neg]
      · exact ih
      · simpa [hqk] using hkk'
      · exact hkk'
    · rw [if_neg hq]
      by_cases hq' : (q.1 == k') = true
      · simp [hq', List.find?_cons_of_pos]
      · rw [List.find?_cons_of_neg, List.find?_cons_of_neg]
        · exact ih
        · exact hq'
        · exact hq'

/-- Reading back the key just assigned yields the assigned value. -/
theorem get?_set_self {α : Type} (m : JsMap α) (k : String) (v : α) :
    get? (set m k v) k = some v := by
  unfold set
  by_cases h : m.any (fun p => p.1 == k) = true
  · rw [if_pos h]
    unfold get?
    rw [find?_update_self m k v h]
    rfl
  · rw [if_neg h]
    have hnk : k ∉ keys m := by
      intro hk
      obtain ⟨p, hp, hpk⟩ := List.mem_map.mp hk
      exact h (List.any_eq_true.mpr ⟨p, hp, by simp [hpk]⟩)
    rw [get?_append, get?_eq_none m k hnk]
    simp [get?]

/-- Assigning one key leaves the values of all other keys unchanged. -/
theorem get?_set_other {α : Type} (m : JsMap α) (k k' : String) (v : α)
    (h : k' ≠ k) : get? (set m k v) k' = get? m k' := by
  unfold set
  by_cases hany : m.any (fun p => p.1 == k) = true
  · rw [if_pos hany]
    unfold get?
    rw [find?_update_other m k k' v h]
  · rw [if_neg hany]
    rw [get?_append, get?_eq_none [(k, v)] k' (by simp [keys, h])]
    cases get? m k' <;> simp

/-- Assigning a key keeps the key set unique if it was unique. -/
theorem keys_set_nodup {α : Type} (m : JsMap α) (k : String) (v : α)
    (h : (keys m).Nodup) : (keys (set m k v)).Nodup := by
  unfold set
  by_cases hany : m.any (fun p => p.1 == k) = true
  · rw [if_pos hany]
    have hkeys : keys (m.map (fun p => if p.1 == k then (k, v) else p)) = keys m := by
      unfold keys
      rw [List.map_map]
      apply List.map_congr_left
      intro p hp
      by_cases hq : (p.1 == k) = true
      · simp only [Function.comp, hq, if_true]
        exact (beq_iff_eq.mp hq).symm
      · simp [Function.comp, hq]
    rw [hkeys]; exact h
  · rw [if_neg hany, keys_append]
    rw [List.nodup_append]
    refine ⟨h, List.nodup_singleton _, ?_⟩
    intro a ha hb
    have hb' : a = k := by simpa [keys] using hb
    subst hb'
    obtain ⟨p, hp, hpk⟩ := List.mem_map.mp ha
    exact hany (List.any_eq_true.mpr ⟨p, hp, beq_iff_eq.mpr hpk⟩)

end JsMap

/-- Updating the cache through the bus-event handler is exactly an assignment
of the freshly built state at the event's processID, in both the notifying
and the silent branch. -/
theorem PM2Tracker.handleProcessEvent_fst (processes : JsMap ProcessState) (event : BusProcess) :
    (PM2Tracker.handleProcessEvent processes event).1
      = processes.set (PM2Tracker.getProcessID event.name event.pm_id)
          (PM2Tracker.eventState event) := by
  simp only [PM2Tracker.handleProcessEvent]
  split <;> rfl

/-- Folding map assignments keeps the key set unique; in particular every
map produced by generateProcessMap has unique keys. -/
theorem PM2Tracker.generateProcessMap_aux_nodup (processList : List ListedProcess)
    (acc : JsMap ProcessState) (hacc : acc.keys.Nodup) :
    (JsMap.keys (processList.foldl
      (fun processes processEntry =>
        processes.set (PM2Tracker.getProcessID processEntry.name processEntry.pm_id)
          (PM2Tracker.listedState processEntry)) acc)).Nodup := by
  induction processList generalizing acc with
  | nil => exact hacc
  | cons d t ih =>
    exact ih _ (JsMap.keys_set_nodup _ _ _ hacc)

theorem PM2Tracker.generateProcessMap_keys_nodup (processList : List ListedProcess) :
    (JsMap.keys (PM2Tracker.generateProcessMap processList)).Nodup :=
  PM2Tracker.generateProcessMap_aux_nodup processList [] List.nodup_nil

/-- When the derived identities of a process list are pairwise distinct, the
generated map lists exactly one binding per descriptor, in list order. -/
theorem PM2Tracker.generateProcessMap_aux_eq (processList : List ListedProcess)
    (acc : JsMap ProcessState)
    (hfresh : ∀ d, d ∈ processList →
      PM2Tracker.getProcessID d.name d.pm_id ∉ acc.keys)
    (hnodup : (processList.map (fun d => PM2Tracker.getProcessID d.name d.pm_id)).Nodup) :
    processList.foldl
      (fun processes processEntry =>
        processes.set (PM2Tracker.getProcessID processEntry.name processEntry.pm_id)
          (PM2Tracker.listedState processEntry)) acc
      = acc ++ processList.map
          (fun d => (PM2Tracker.getProcessID d.name d.pm_id, PM2Tracker.listedState d)) := by
  induction processList generalizing acc with
  | nil => simp
  | cons d t ih =>
    simp only [List.foldl_cons, List.map_cons]
    rw [JsMap.set_eq_append _ _ _ (hfresh d (List.mem_cons_self d t))]
    rw [ih (acc ++ [(PM2Tracker.getProcessID d.name d.pm_id, PM2Tracker.listedState d)])]
    · simp
    · intro d' hd'
      rw [JsMap.keys_append]
      intro hmem
      rcases List.mem_append.mp hmem with hmem | hmem
      · exact hfresh d' (List.mem_cons_of_mem d hd') hmem
      · have hd'd : PM2Tracker.getProcessID d'.name d'.pm_id
            = PM2Tracker.getProcessID d.name d.pm_id := by
          simpa [JsMap.keys] using hmem
        rw [List.map_cons, List.nodup_cons] at hnodup
        exact hnodup.1 (hd'd ▸ List.mem_map_of_mem _ hd')
    · rw [List.map_cons, List.nodup_cons] at hnodup
      exact hnodup.2

theorem PM2Tracker.generateProcessMap_eq_map (processList : List ListedProcess)
    (hnodup : (processList.map (fun d => PM2Tracker.getProcessID d.name d.pm_id)).Nodup) :
    PM2Tracker.generateProcessMap processList
      = processList.map
          (fun d => (PM2Tracker.getProcessID d.name d.pm_id, PM2Tracker.listedState d)) := by
  unfold PM2Tracker.generateProcessMap
  rw [PM2Tracker.generateProcessMap_aux_eq processList [] (by simp [JsMap.keys]) hnodup]
  simp

/-- C1: a bus event produces a processStateChanged notification exactly when
the cache has no entry for the event's identity or the cached entry's status
differs from the event's status; in particular the first observation always
notifies and a change of cpu, memory or restarts alone never does. -/
theorem notification_iff_status_differs (processes : JsMap ProcessState) (event : BusProcess) :
    ((PM2Tracker.handleProcessEvent processes event).2.isSome = true) ↔
      (∀ old, processes.get? (PM2Tracker.getProcessID event.name event.pm_id) = some old →
        old.status ≠ event.status) := by
  cases hold : processes.get? (PM2Tracker.getProcessID event.name event.pm_id) with
  | none =>
    simp [PM2Tracker.handleProcessEvent, hold]
  | some old =>
    by_cases hs : old.status = event.status
    · simp [PM2Tracker.handleProcessEvent, hold, ProcessState.equals,
        PM2Tracker.eventState, hs]
    · simp [PM2Tracker.handleProcessEvent, hold, ProcessState.equals,
        PM2Tracker.eventState, hs, Ne.symm hs]

/-- After a non-empty event sequence, the cache entry for the last event's
identity is the state built from that last event. -/
theorem PM2Tracker.processEvents_getLast (es : List BusProcess) (e : BusProcess) :
    ∀ (m : JsMap ProcessState), es.getLast? = some e →
      (PM2Tracker.processEvents m es).get? (PM2Tracker.getProcessID e.name e.pm_id)
        = some (PM2Tracker.eventState e) := by
  induction es with
  | nil =>
    intro m h
    simp at h
  | cons x t ih =>
    intro m h
    cases t with
    | nil =>
      have hex : e = x := by
        have := h
        simp at this
        exact this.symm
      subst hex
      simp only [PM2Tracker.processEvents, List.foldl_cons, List.foldl_nil]
      rw [PM2Tracker.handleProcessEvent_fst]
      exact JsMap.get?_set_self _ _ _
    | cons y t' =>
      rw [List.getLast?_cons_cons] at h
      exact ih (PM2Tracker.handleProcessEvent m x).1 h

/-- C2: the bus-event handler overwrites the cache entry for the event's
identity unconditionally, and after any event sequence the cache holds, at
the identity of the sequence's last event, exactly the state built from that
last event. -/
theorem cache_last_write_wins (m : JsMap ProcessState) (es : List BusProcess)
    (e : BusProcess) (h : es.getLast? = some e) :
    ((PM2Tracker.handleProcessEvent m e).1).get?
        (PM2Tracker.getProcessID e.name e.pm_id) = some (PM2Tracker.eventState e)
    ∧ (PM2Tracker.processEvents m es).get?
        (PM2Tracker.getProcessID e.name e.pm_id) = some (PM2Tracker.eventState e) := by
  refine ⟨?_, PM2Tracker.processEvents_getLast es e m h⟩
  rw [PM2Tracker.handleProcessEvent_fst]
  exact JsMap.get?_set_self _ _ _

theorem cache_last_write_wins_witness :
    [sampleBusEvent].getLast? = some sampleBusEvent
    ∧ (((PM2Tracker.handleProcessEvent [] sampleBusEvent).1).get?
          (PM2Tracker.getProcessID sampleBusEvent.name sampleBusEvent.pm_id)
        = some (PM2Tracker.eventState sampleBusEvent)
      ∧ (PM2Tracker.processEvents [] [sampleBusEvent]).get?
          (PM2Tracker.getProcessID sampleBusEvent.name sampleBusEvent.pm_id)
        = some (PM2Tracker.eventState sampleBusEvent)) :=
  ⟨rfl, cache_last_write_wins [] [sampleBusEvent] sampleBusEvent rfl⟩

/-- C4 counterexample: after stop() on a started tracker, a delivered bus
event is not ignored — the handler still runs, the cache gains the new
state, and a notification is emitted, because stop() only issues a
disconnect and never removes the process:event listener. -/
theorem stop_does_not_disarm :
    (PM2Tracker.deliverBusEvent (PM2Tracker.stop (PM2Tracker.start PM2Tracker.new []))
        sampleBusEvent).2 = some sampleChangeEvent
    ∧ (PM2Tracker.deliverBusEvent (PM2Tracker.stop (PM2Tracker.start PM2Tracker.new []))
        sampleBusEvent).1.processes = [("web-0", PM2Tracker.eventState sampleBusEvent)] :=
  ⟨rfl, rfl⟩

/-- C4 amended: stop() leaves the tracker state untouched (it only issues a
disconnect to the supervisor and does not remove the bus listener), so a bus
event delivered after stop() is processed exactly as it would have been
before; quiescence after stop relies on the disconnect halting delivery, not
on the tracker ignoring events. -/
theorem deliverBusEvent_stop_invariant (tracker : PM2Tracker) (event : BusProcess) :
    PM2Tracker.stop tracker = tracker
    ∧ PM2Tracker.deliverBusEvent (PM2Tracker.stop tracker) event
        = PM2Tracker.deliverBusEvent tracker event :=
  ⟨rfl, rfl⟩

/-- C10: an emitted notification always agrees with the cache: its newState
is the state stored at its processID by this very event, and its oldState is
the entry that was replaced (absent on first observation). -/
theorem notification_matches_cache (m : JsMap ProcessState) (event : BusProcess)
    (changeEvent : ChangeEvent)
    (h : (PM2Tracker.handleProcessEvent m event).2 = some changeEvent) :
    ((PM2Tracker.handleProcessEvent m event).1).get? changeEvent.processID
        = some changeEvent.newState
    ∧ changeEvent.oldState = m.get? changeEvent.processID := by
  simp only [PM2Tracker.handleProcessEvent] at h
  split at h
  · injection h with h2
    subst h2
    constructor
    · rw [PM2Tracker.handleProcessEvent_fst]
      exact JsMap.get?_set_self _ _ _
    · rfl
  · exact absurd h (by simp)

theorem notification_matches_cache_witness :
    (PM2Tracker.handleProcessEvent [] sampleBusEvent).2 = some sampleChangeEvent
    ∧ (((PM2Tracker.handleProcessEvent [] sampleBusEvent).1).get?
          sampleChangeEvent.processID = some sampleChangeEvent.newState
      ∧ sampleChangeEvent.oldState = JsMap.get? [] sampleChangeEvent.processID) :=
  ⟨rfl, notification_matches_cache [] sampleBusEvent sampleChangeEvent rfl⟩

/-- C8 counterexample: two initial descriptors with the same derived identity
produce a single cache entry (holding the state of the later descriptor), so
the cache does not contain one entry per descriptor of the initial list. -/
theorem cached_map_collapses_duplicate_identities :
    PM2Tracker.getCachedProcessMap
        (PM2Tracker.start PM2Tracker.new [sampleListedOnline, sampleListedStopped])
      = [("web-0", PM2Tracker.listedState sampleListedStopped)]
    ∧ PM2Tracker.listedState sampleListedOnline ≠ PM2Tracker.listedState sampleListedStopped := by
  exact ⟨rfl, by decide⟩

/-- C8 amended: getCachedProcessMap is a pure projection of the tracker
state; it is the empty map on a freshly constructed tracker, and immediately
after start() it holds one entry per initial descriptor, keyed by the derived
identity, provided the derived identities are pairwise distinct (descriptors
sharing an identity collapse into the last one). -/
theorem getCachedProcessMap_lifecycle (processList : List ListedProcess)
    (hnodup : (processList.map (fun d => PM2Tracker.getProcessID d.name d.pm_id)).Nodup) :
    PM2Tracker.getCachedProcessMap PM2Tracker.new = []
    ∧ PM2Tracker.getCachedProcessMap (PM2Tracker.start PM2Tracker.new processList)
        = processList.map
            (fun d => (PM2Tracker.getProcessID d.name d.pm_id, PM2Tracker.listedState d)) :=
  ⟨rfl, PM2Tracker.generateProcessMap_eq_map processList hnodup⟩

theorem getCachedProcessMap_lifecycle_witness :
    (([sampleListedOnline, sampleListedOnline1].map
        (fun d => PM2Tracker.getProcessID d.name d.pm_id)).Nodup)
    ∧ (PM2Tracker.getCachedProcessMap PM2Tracker.new = []
      ∧ PM2Tracker.getCachedProcessMap
            (PM2Tracker.start PM2Tracker.new [sampleListedOnline, sampleListedOnline1])
          = [("web-0", PM2Tracker.listedState sampleListedOnline),
             ("web-1", PM2Tracker.listedState sampleListedOnline1)]) :=
  ⟨by decide, getCachedProcessMap_lifecycle [sampleListedOnline, sampleListedOnline1] (by decide)⟩

/-- Folding addDiscoveryItem over map entries appends one rendered item per
entry, in entry order. -/
theorem ZabbixDataProvider.foldl_addDiscoveryItem (entries : List (String × ProcessState))
    (provider : ZabbixDataProvider) :
    (entries.foldl (fun dataProvider entry =>
        dataProvider.addDiscoveryItem (PM2ZabbixMonitor.discoveryItemFor entry.1 entry.2))
      provider).discoveryItems
      = provider.discoveryItems
        ++ entries.map (fun entry => PM2ZabbixMonitor.discoveryItemFor entry.1 entry.2) := by
  induction entries generalizing provider with
  | nil => simp
  | cons e t ih =>
    simp only [List.foldl_cons, List.map_cons]
    rw [ih]
    simp [ZabbixDataProvider.addDiscoveryItem]

/-- C5 counterexample: an initial list of two descriptors sharing one derived
identity yields a single discovery item, not one item per listed process. -/
theorem discovery_collapses_duplicate_identities :
    (ZabbixDataProvider.getDiscoveryData
        (PM2ZabbixMonitor.start
          (PM2Tracker.start PM2Tracker.new [sampleListedOnline, sampleListedStopped])
          { discoveryItems := [] })).data
      = [[("\x7b#PROCESS_ID\x7d", JsValue.str "web-0"),
          ("\x7b#PROCESS_NAME\x7d", JsValue.str "web")]] := rfl

/-- C5 amended: for an initial process list whose derived identities are
pairwise distinct, the discovery data after start() is the data envelope
holding, in list order, one item per listed process with exactly the
process-id macro mapped to name-index and the process-name macro mapped to
the name (descriptors sharing an identity collapse into one item). -/
theorem discovery_data_from_initial_list (processList : List ListedProcess)
    (hnodup : (processList.map (fun d => PM2Tracker.getProcessID d.name d.pm_id)).Nodup) :
    (ZabbixDataProvider.getDiscoveryData
        (PM2ZabbixMonitor.start (PM2Tracker.start PM2Tracker.new processList)
          { discoveryItems := [] })).data
      = processList.map (fun d =>
          [("\x7b#PROCESS_ID\x7d", JsValue.str (PM2Tracker.getProcessID d.name d.pm_id)),
           ("\x7b#PROCESS_NAME\x7d", JsValue.str d.name)]) := by
  have hmap := PM2Tracker.generateProcessMap_eq_map processList hnodup
  simp only [PM2ZabbixMonitor.start, PM2Tracker.getCachedProcessMap, PM2Tracker.start]
  rw [hmap, ZabbixDataProvider.getDiscoveryData,
    ZabbixDataProvider.foldl_addDiscoveryItem]
  simp [List.map_map, PM2ZabbixMonitor.discoveryItemFor, PM2Tracker.listedState]

theorem discovery_data_from_initial_list_witness :
    (([sampleListedOnline, sampleListedOnline1].map
        (fun d => PM2Tracker.getProcessID d.name d.pm_id)).Nodup)
    ∧ (ZabbixDataProvider.getDiscoveryData
          (PM2ZabbixMonitor.start
            (PM2Tracker.start PM2Tracker.new [sampleListedOnline, sampleListedOnline1])
            { discoveryItems := [] })).data
        = [[("\x7b#PROCESS_ID\x7d", JsValue.str "web-0"),
            ("\x7b#PROCESS_NAME\x7d", JsValue.str "web")],
           [("\x7b#PROCESS_ID\x7d", JsValue.str "web-1"),
            ("\x7b#PROCESS_NAME\x7d", JsValue.str "web")]] :=
  ⟨by decide,
    discovery_data_from_initial_list [sampleListedOnline, sampleListedOnline1] (by decide)⟩

/-- Every state stored by the generateProcessMap fold has an undefined pid,
because the ProcessState constructor is invoked without a pid property. -/
theorem PM2Tracker.generateProcessMap_pid_none (processList : List ListedProcess) :
    ∀ (acc : JsMap ProcessState),
      (∀ processID s, acc.get? processID = some s → s.pid = none) →
      ∀ processID s,
        (processList.foldl
          (fun processes d =>
            processes.set (PM2Tracker.getProcessID d.name d.pm_id)
              (PM2Tracker.listedState d)) acc).get? processID = some s →
        s.pid = none := by
  induction processList with
  | nil =>
    intro acc hacc
    exact hacc
  | cons d t ih =>
    intro acc hacc
    simp only [List.foldl_cons]
    apply ih
    intro processID s hget
    by_cases hid : processID = PM2Tracker.getProcessID d.name d.pm_id
    · subst hid
      rw [JsMap.get?_set_self] at hget
      injection hget with hh
      subst hh
      rfl
    · rw [JsMap.get?_set_other _ _ _ _ hid] at hget
      exact hacc processID s hget

/-- C9 counterexample: a state built from a process-list query carries no pid
at all (the pid property is undefined), so it is not a non-negative integer. -/
theorem processMap_state_has_no_pid :
    (JsMap.get? (PM2Tracker.generateProcessMap [sampleListedOnline]) "web-0")
      = some (PM2Tracker.listedState sampleListedOnline)
    ∧ (PM2Tracker.listedState sampleListedOnline).pid = none :=
  ⟨rfl, rfl⟩

/-- C9 amended: states built from process-list queries carry no pid
(undefined); the synthetic supervisor states carry one — the pidfile-derived
number when online, the constant 0 when offline; and the state carried by a
notification has exactly the pid field of the raw bus event. -/
theorem pid_field_provenance (processList : List ListedProcess) (processID : String)
    (s : ProcessState)
    (hs : (PM2Tracker.generateProcessMap processList).get? processID = some s)
    (Number : String → Int) (content : String) (stat : Int → Except IOErr Resources)
    (s2 : ProcessState)
    (h2 : PM2Tracker.getPM2State Number (Except.ok content) stat = Except.ok s2)
    (m : JsMap ProcessState) (event : BusProcess) (changeEvent : ChangeEvent)
    (h3 : (PM2Tracker.handleProcessEvent m event).2 = some changeEvent) :
    s.pid = none
    ∧ (s2.pid = some (Number content.trim) ∨ s2.pid = some 0)
    ∧ changeEvent.newState.pid = event.pid := by
  refine ⟨?_, ?_, ?_⟩
  · exact PM2Tracker.generateProcessMap_pid_none processList []
      (by intro pid s h; simp [JsMap.get?] at h) processID s hs
  · simp only [PM2Tracker.getPM2State] at h2
    cases hstat : stat (Number content.trim) with
    | ok usageInfo =>
      rw [hstat] at h2
      injection h2 with hh
      subst hh
      exact Or.inl rfl
    | error e =>
      rw [hstat] at h2
      by_cases he : e = IOErr.ENOENT
      · subst he
        injection h2 with hh
        subst hh
        exact Or.inr rfl
      · simp [he] at h2
  · simp only [PM2Tracker.handleProcessEvent] at h3
    split at h3
    · injection h3 with hh
      subst hh
      rfl
    · exact absurd h3 (by simp)

theorem pid_field_provenance_witness :
    (PM2Tracker.generateProcessMap [sampleListedOnline]).get? "web-0"
        = some (PM2Tracker.listedState sampleListedOnline)
    ∧ PM2Tracker.getPM2State (fun _ => 7) (Except.ok "7")
        (fun _ => Except.ok { cpu := 1, memory := 2 })
        = Except.ok samplePM2Online
    ∧ (PM2Tracker.handleProcessEvent [] sampleBusEvent).2 = some sampleChangeEvent
    ∧ ((PM2Tracker.listedState sampleListedOnline).pid = none
      ∧ (samplePM2Online.pid = some ((fun (_ : String) => (7 : Int)) (String.trim "7"))
        ∨ samplePM2Online.pid = some 0)
      ∧ sampleChangeEvent.newState.pid = sampleBusEvent.pid) :=
  ⟨rfl, rfl, rfl,
    pid_field_provenance [sampleListedOnline] "web-0"
      (PM2Tracker.listedState sampleListedOnline) rfl
      (fun _ => 7) "7" (fun _ => Except.ok { cpu := 1, memory := 2 })
      samplePM2Online rfl
      [] sampleBusEvent sampleChangeEvent rfl⟩

/-- C3 counterexample: when the pm2.pid file cannot be found, the file read
rejects with ENOENT and getPM2State propagates that rejection instead of
fulfilling with a synthetic offline state — the catch in the source guards
only the pid usage query, not the file read. -/
theorem getPM2State_missing_pidfile_rejects :
    PM2Tracker.getPM2State (fun _ => 0) (Except.error IOErr.ENOENT)
        (fun _ => Except.ok { cpu := 1, memory := 1 })
      = Except.error IOErr.ENOENT := rfl

/-- C3 amended: when the pid file is readable but the pid's process cannot be
found (the usage query rejects with ENOENT), getPM2State fulfills with the
synthetic offline state (status offline, zero resources, zero restarts,
pid 0), and sendPM2Status for that state sends exactly the batch
status=offline, cpu=0, memory=0, pid=0; a missing pid file instead makes
getPM2State reject. -/
theorem supervisor_offline_when_process_missing (Number : String → Int) (content : String)
    (stat : Int → Except IOErr Resources)
    (hstat : stat (Number content.trim) = Except.error IOErr.ENOENT) :
    PM2Tracker.getPM2State Number (Except.ok content) stat
        = Except.ok PM2Tracker.offlinePM2State
    ∧ PM2ZabbixMonitor.sendPM2Status PM2Tracker.offlinePM2State
        = [("pm2.status", JsValue.str "offline"), ("pm2.cpu", JsValue.num 0),
           ("pm2.memory", JsValue.num 0), ("pm2.pid", JsValue.num 0)] := by
  constructor
  · simp only [PM2Tracker.getPM2State, hstat]
    rfl
  · rfl

theorem supervisor_offline_when_process_missing_witness :
    ((fun (_ : Int) => (Except.error IOErr.ENOENT : Except IOErr Resources))
        ((fun (_ : String) => (0 : Int)) (String.trim "")) = Except.error IOErr.ENOENT)
    ∧ (PM2Tracker.getPM2State (fun _ => 0) (Except.ok "")
          (fun _ => Except.error IOErr.ENOENT)
        = Except.ok PM2Tracker.offlinePM2State
      ∧ PM2ZabbixMonitor.sendPM2Status PM2Tracker.offlinePM2State
        = [("pm2.status", JsValue.str "offline"), ("pm2.cpu", JsValue.num 0),
           ("pm2.memory", JsValue.num 0), ("pm2.pid", JsValue.num 0)]) :=
  ⟨rfl, supervisor_offline_when_process_missing (fun _ => 0) ""
    (fun _ => Except.error IOErr.ENOENT) rfl⟩

/-- C7: removeDiscoveryItems keeps an item exactly when some key of the
removal specification reads differently on the item (JavaScript property
reads: a missing key is undefined); equivalently it removes exactly the
items agreeing with every key of the specification, extra keys of the item
notwithstanding, and the empty specification removes every item. -/
theorem removeDiscoveryItems_partial_match (provider : ZabbixDataProvider)
    (removalSpecification : JsMap JsValue) (item : JsMap JsValue) :
    (item ∈ (provider.removeDiscoveryItems removalSpecification).discoveryItems ↔
      (item ∈ provider.discoveryItems ∧
        ¬(∀ removalKey, removalKey ∈ removalSpecification.keys →
            item.read removalKey = removalSpecification.read removalKey)))
    ∧ (provider.removeDiscoveryItems []).discoveryItems = [] := by
  have hbridge : ∀ it : JsMap JsValue,
      ((!(removalSpecification.keys.all
          (fun k => removalSpecification.read k == it.read k))) = true)
        ↔ ¬(∀ k, k ∈ removalSpecification.keys →
            it.read k = removalSpecification.read k) := by
    intro it
    rw [Bool.not_eq_true', List.all_eq_false]
    constructor
    · rintro ⟨k, hk, hne⟩ hall
      exact absurd ((hall k hk).symm) (by simpa using hne)
    · intro hnall
      by_contra hno
      push_neg at hno
      apply hnall
      intro k hk
      have h2 := hno k hk
      exact (beq_iff_eq.mp h2).symm
  constructor
  · simp only [ZabbixDataProvider.removeDiscoveryItems]
    exact (List.mem_filter).trans (and_congr Iff.rfl (hbridge item))
  · simp [ZabbixDataProvider.removeDiscoveryItems, JsMap.keys]

/-- Splitting at a separator character that occurs in neither right part is
unambiguous. -/
theorem sep_append_inj {c : Char} (xs : List Char) :
    ∀ (xs2 ys ys2 : List Char), c ∉ ys → c ∉ ys2 →
      xs ++ c :: ys = xs2 ++ c :: ys2 → xs = xs2 ∧ ys = ys2 := by
  induction xs with
  | nil =>
    intro xs2 ys ys2 hy hy2 h
    cases xs2 with
    | nil => simpa using h
    | cons d t =>
      simp only [List.nil_append, List.cons_append, List.cons.injEq] at h
      exact absurd (h.2 ▸ List.mem_append_right t (List.mem_cons_self c ys2)) hy
  | cons d t ih =>
    intro xs2 ys ys2 hy hy2 h
    cases xs2 with
    | nil =>
      simp only [List.nil_append, List.cons_append, List.cons.injEq] at h
      exact absurd ((h.2).symm ▸ List.mem_append_right t (List.mem_cons_self c ys)) hy2
    | cons d2 t2 =>
      simp only [List.cons_append, List.cons.injEq] at h
      obtain ⟨hd, ht⟩ := h
      obtain ⟨h1, h2⟩ := ih t2 ys ys2 hy hy2 ht
      exact ⟨by rw [hd, h1], h2⟩

/-- The per-process item key determines the identity and the field, as long
as the field names contain no comma (all four field names used by the
monitor are comma-free). -/
theorem getDataKey_inj (processID1 processID2 dataItem1 dataItem2 : String)
    (h1 : (',' : Char) ∉ dataItem1.data) (h2 : (',' : Char) ∉ dataItem2.data)
    (h : PM2ZabbixMonitor.getDataKey processID1 dataItem1
        = PM2ZabbixMonitor.getDataKey processID2 dataItem2) :
    processID1 = processID2 ∧ dataItem1 = dataItem2 := by
  unfold PM2ZabbixMonitor.getDataKey at h
  rw [String.ext_iff] at h
  simp only [String.data_append, List.append_assoc] at h
  have h' := List.append_cancel_left h
  have hsep := sep_append_inj processID1.data processID2.data
    (dataItem1.data ++ [']']) (dataItem2.data ++ [']'])
    (by
      intro hmem
      rcases List.mem_append.mp hmem with hmem | hmem
      · exact h1 hmem
      · simp at hmem)
    (by
      intro hmem
      rcases List.mem_append.mp hmem with hmem | hmem
      · exact h2 hmem
      · simp at hmem)
    (by simpa using h')
  refine ⟨String.ext hsep.1, String.ext (List.append_cancel_right hsep.2)⟩

/-- Item keys for distinct fields differ. -/
theorem getDataKey_ne_of_field_ne (processID1 processID2 dataItem1 dataItem2 : String)
    (h1 : (',' : Char) ∉ dataItem1.data) (h2 : (',' : Char) ∉ dataItem2.data)
    (hne : dataItem1 ≠ dataItem2) :
    PM2ZabbixMonitor.getDataKey processID1 dataItem1
      ≠ PM2ZabbixMonitor.getDataKey processID2 dataItem2 :=
  fun h => hne (getDataKey_inj processID1 processID2 dataItem1 dataItem2 h1 h2 h).2

/-- Item keys for distinct identities differ. -/
theorem getDataKey_ne_of_id_ne (processID1 processID2 dataItem1 dataItem2 : String)
    (h1 : (',' : Char) ∉ dataItem1.data) (h2 : (',' : Char) ∉ dataItem2.data)
    (hne : processID1 ≠ processID2) :
    PM2ZabbixMonitor.getDataKey processID1 dataItem1
      ≠ PM2ZabbixMonitor.getDataKey processID2 dataItem2 :=
  fun h => hne (getDataKey_inj processID1 processID2 dataItem1 dataItem2 h1 h2 h).1

theorem JsMap.not_mem_keys_append {α : Type} (m₁ m₂ : JsMap α) (k : String)
    (h1 : k ∉ JsMap.keys m₁) (h2 : k ∉ JsMap.keys m₂) :
    k ∉ JsMap.keys (m₁ ++ m₂) := by
  rw [JsMap.keys_append]
  intro h
  rcases List.mem_append.mp h with h | h
  · exact h1 h
  · exact h2 h

theorem JsMap.not_mem_keys_single {α : Type} (k k' : String) (v : α)
    (h : k ≠ k') : k ∉ JsMap.keys [(k', v)] := by
  simp [JsMap.keys, h]

/-- The sendProcessList fold over a map with unique keys, starting from a
data object whose keys collide with no per-process item key of the map,
appends exactly the four rendered entries of every map binding, in order. -/
theorem sendProcessList_flatten :
    ∀ (m : JsMap ProcessState) (acc : JsMap JsValue),
      (JsMap.keys m).Nodup →
      (∀ k, k ∈ JsMap.keys acc → ∀ processID dataItem, processID ∈ JsMap.keys m →
        (',' : Char) ∉ dataItem.data →
        k ≠ PM2ZabbixMonitor.getDataKey processID dataItem) →
      m.foldl
        (fun dataObject entry =>
          ((((dataObject.set (PM2ZabbixMonitor.getDataKey entry.1 "status")
              (JsValue.str entry.2.status)).set
            (PM2ZabbixMonitor.getDataKey entry.1 "cpu")
              (JsValue.num entry.2.resources.cpu)).set
            (PM2ZabbixMonitor.getDataKey entry.1 "memory")
              (JsValue.num entry.2.resources.memory)).set
            (PM2ZabbixMonitor.getDataKey entry.1 "restarts")
              (JsValue.num entry.2.restarts))) acc
        = acc ++ (m.map PM2ZabbixMonitor.processEntryData).flatten := by
  intro m
  induction m with
  | nil =>
    intro acc _ _
    simp
  | cons e t ih =>
    intro acc hnd hfresh
    have hkeys_cons : JsMap.keys (e :: t) = e.1 :: JsMap.keys t := rfl
    rw [hkeys_cons, List.nodup_cons] at hnd
    have hide : e.1 ∈ JsMap.keys (e :: t) := by
      rw [hkeys_cons]
      exact List.mem_cons_self _ _
    have hfr1 : PM2ZabbixMonitor.getDataKey e.1 "status" ∉ JsMap.keys acc := fun hk =>
      (hfresh _ hk e.1 "status" hide (by decide)) rfl
    have hfr2 : PM2ZabbixMonitor.getDataKey e.1 "cpu" ∉ JsMap.keys acc := fun hk =>
      (hfresh _ hk e.1 "cpu" hide (by decide)) rfl
    have hfr3 : PM2ZabbixMonitor.getDataKey e.1 "memory" ∉ JsMap.keys acc := fun hk =>
      (hfresh _ hk e.1 "memory" hide (by decide)) rfl
    have hfr4 : PM2ZabbixMonitor.getDataKey e.1 "restarts" ∉ JsMap.keys acc := fun hk =>
      (hfresh _ hk e.1 "restarts" hide (by decide)) rfl
    have hk2 : PM2ZabbixMonitor.getDataKey e.1 "cpu"
        ∉ JsMap.keys (acc ++ [(PM2ZabbixMonitor.getDataKey e.1 "status",
            JsValue.str e.2.status)]) :=
      JsMap.not_mem_keys_append _ _ _ hfr2
        (JsMap.not_mem_keys_single _ _ _
          (getDataKey_ne_of_field_ne e.1 e.1 "cpu" "status"
            (by decide) (by decide) (by decide)))
    have hk3 : PM2ZabbixMonitor.getDataKey e.1 "memory"
        ∉ JsMap.keys ((acc ++ [(PM2ZabbixMonitor.getDataKey e.1 "status",
              JsValue.str e.2.status)])
            ++ [(PM2ZabbixMonitor.getDataKey e.1 "cpu",
              JsValue.num e.2.resources.cpu)]) :=
      JsMap.not_mem_keys_append _ _ _
        (JsMap.not_mem_keys_append _ _ _ hfr3
          (JsMap.not_mem_keys_single _ _ _
            (getDataKey_ne_of_field_ne e.1 e.1 "memory" "status"
              (by decide) (by decide) (by decide))))
        (JsMap.not_mem_keys_single _ _ _
          (getDataKey_ne_of_field_ne e.1 e.1 "memory" "cpu"
            (by decide) (by decide) (by decide)))
    have hk4 : PM2ZabbixMonitor.getDataKey e.1 "restarts"
        ∉ JsMap.keys (((acc ++ [(PM2ZabbixMonitor.getDataKey e.1 "status",
              JsValue.str e.2.status)])
            ++ [(PM2ZabbixMonitor.getDataKey e.1 "cpu",
              JsValue.num e.2.resources.cpu)])
            ++ [(PM2ZabbixMonitor.getDataKey e.1 "memory",
              JsValue.num e.2.resources.memory)]) :=
      JsMap.not_mem_keys_append _ _ _
        (JsMap.not_mem_keys_append _ _ _
          (JsMap.not_mem_keys_append _ _ _ hfr4
            (JsMap.not_mem_keys_single _ _ _
              (getDataKey_ne_of_field_ne e.1 e.1 "restarts" "status"
                (by decide) (by decide) (by decide))))
          (JsMap.not_mem_keys_single _ _ _
            (getDataKey_ne_of_field_ne e.1 e.1 "restarts" "cpu"
              (by decide) (by decide) (by decide))))
        (JsMap.not_mem_keys_single _ _ _
          (getDataKey_ne_of_field_ne e.1 e.1 "restarts" "memory"
            (by decide) (by decide) (by decide)))
    have hstep :
        ((((acc.set (PM2ZabbixMonitor.getDataKey e.1 "status")
            (JsValue.str e.2.status)).set
          (PM2ZabbixMonitor.getDataKey e.1 "cpu")
            (JsValue.num e.2.resources.cpu)).set
          (PM2ZabbixMonitor.getDataKey e.1 "memory")
            (JsValue.num e.2.resources.memory)).set
          (PM2ZabbixMonitor.getDataKey e.1 "restarts")
            (JsValue.num e.2.restarts))
          = acc ++ PM2ZabbixMonitor.processEntryData e := by
      rw [JsMap.set_eq_append _ _ _ hfr1, JsMap.set_eq_append _ _ _ hk2,
        JsMap.set_eq_append _ _ _ hk3, JsMap.set_eq_append _ _ _ hk4]
      simp [PM2ZabbixMonitor.processEntryData]
    simp only [List.foldl_cons, List.map_cons, List.flatten_cons]
    rw [hstep]
    rw [ih (acc ++ PM2ZabbixMonitor.processEntryData e) hnd.2 ?hfresh2]
    · rw [List.append_assoc]
    case hfresh2 =>
      intro k hk processID dataItem hpid hdi
      rcases List.mem_append.mp (by rw [JsMap.keys_append] at hk; exact hk) with hk' | hk'
      · exact hfresh k hk' processID dataItem
          (by rw [hkeys_cons]; exact List.mem_cons_of_mem _ hpid) hdi
      · have hene : e.1 ≠ processID := by
          intro hEq
          exact hnd.1 (hEq ▸ hpid)
        have hk4' : k = PM2ZabbixMonitor.getDataKey e.1 "status"
            ∨ k = PM2ZabbixMonitor.getDataKey e.1 "cpu"
            ∨ k = PM2ZabbixMonitor.getDataKey e.1 "memory"
            ∨ k = PM2ZabbixMonitor.getDataKey e.1 "restarts" := by
          simpa [PM2ZabbixMonitor.processEntryData, JsMap.keys] using hk'
        rcases hk4' with rfl | rfl | rfl | rfl
        · exact getDataKey_ne_of_id_ne _ _ _ _ (by decide) hdi hene
        · exact getDataKey_ne_of_id_ne _ _ _ _ (by decide) hdi hene
        · exact getDataKey_ne_of_id_ne _ _ _ _ (by decide) hdi hene
        · exact getDataKey_ne_of_id_ne _ _ _ _ (by decide) hdi hene

/-- The data object built by the sendProcessList fold always has unique
keys, whatever the starting accumulator and map. -/
theorem sendProcessList_fold_keys_nodup :
    ∀ (m : JsMap ProcessState) (acc : JsMap JsValue),
      (JsMap.keys acc).Nodup →
      (JsMap.keys (m.foldl
        (fun dataObject entry =>
          ((((dataObject.set (PM2ZabbixMonitor.getDataKey entry.1 "status")
              (JsValue.str entry.2.status)).set
            (PM2ZabbixMonitor.getDataKey entry.1 "cpu")
              (JsValue.num entry.2.resources.cpu)).set
            (PM2ZabbixMonitor.getDataKey entry.1 "memory")
              (JsValue.num entry.2.resources.memory)).set
            (PM2ZabbixMonitor.getDataKey entry.1 "restarts")
              (JsValue.num entry.2.restarts))) acc)).Nodup := by
  intro m
  induction m with
  | nil =>
    intro acc hacc
    exact hacc
  | cons e t ih =>
    intro acc hacc
    simp only [List.foldl_cons]
    exact ih _ (JsMap.keys_set_nodup _ _ _
      (JsMap.keys_set_nodup _ _ _
        (JsMap.keys_set_nodup _ _ _
          (JsMap.keys_set_nodup _ _ _ hacc))))

/-- C6: on any fresh process map, the batch sent by sendProcessList consists
of exactly the four item keys status, cpu, memory and restarts per map entry,
each rendered as pm2.processes[identity,field] and mapped to the entry's
field value, in map order, with mutually distinct keys and nothing else; and
the batch sent by sendPM2Status consists of exactly the four manager keys
pm2.status, pm2.cpu, pm2.memory and pm2.pid mapped to the supervisor state's
fields. -/
theorem report_keys_exact (processList : List ListedProcess) (processState : ProcessState) :
    PM2ZabbixMonitor.sendProcessList (PM2Tracker.getProcessMap processList)
      = ((PM2Tracker.getProcessMap processList).map
          PM2ZabbixMonitor.processEntryData).flatten
    ∧ (JsMap.keys (PM2ZabbixMonitor.sendProcessList
        (PM2Tracker.getProcessMap processList))).Nodup
    ∧ PM2ZabbixMonitor.sendPM2Status processState
      = [(PM2ZabbixMonitor.getManagerKey "status", JsValue.str processState.status),
         (PM2ZabbixMonitor.getManagerKey "cpu", JsValue.num processState.resources.cpu),
         (PM2ZabbixMonitor.getManagerKey "memory", JsValue.num processState.resources.memory),
         (PM2ZabbixMonitor.getManagerKey "pid", processState.pidValue)] := by
  refine ⟨?_, ?_, ?_⟩
  · have h := sendProcessList_flatten (PM2Tracker.getProcessMap processList) []
      (PM2Tracker.generateProcessMap_keys_nodup processList)
      (by intro k hk; simp [JsMap.keys] at hk)
    simpa [PM2ZabbixMonitor.sendProcessList] using h
  · exact sendProcessList_fold_keys_nodup (PM2Tracker.getProcessMap processList) []
      List.nodup_nil
  · rfl
